import Mathlib

/-!
Verification of the TriforceDataPull repository.

Part 1 embeds the retrying HTTP fetcher `make_get_request` from
`src/service/caller.rs` as a pure function over an explicit network
oracle; the outward-visible behaviour of one call (requests sent,
delays slept, log lines printed, final result) is collected in a
`CallTrace`.

Part 2 embeds the response decoder / domain mapper.  The file
`serde_models.rs` is not part of the sources, only the integration
tests that exercise it are, so the decoders are modelled from the
specification (marked `Modelled from the spec:` on each definition).
-/

/-- HTTP response as seen at the transport level: `reqwest::Response`
restricted to the data the program can observe (status code and body).
`make_get_request` never looks inside it. -/
structure Response where
  status : Nat
  body : String
deriving DecidableEq

/-- Transport-level error, `reqwest::Error` restricted to what the caller
code observes: the `is_timeout()` classification and a description. -/
structure ReqwestError where
  is_timeout : Bool
  description : String
deriving DecidableEq

/-- HTTP client produced by `reqwest::Client::builder().timeout(...).build()`,
reduced to its only configured datum: the per-attempt timeout. -/
structure Client where
  timeout_secs : Nat
deriving DecidableEq

/-- One outgoing GET request as assembled in the loop body of
`make_get_request`: `client.get(url).header("x-api-key", ...)` plus the
optional `query(arguments)`, carrying the client timeout. -/
structure GetRequest where
  url : String
  api_key : String
  query : Option (List (String × String))
  timeout_secs : Nat
deriving DecidableEq

/-- The `color_eyre::Report` values the function can return: either an
error propagated bare by the `?` operator (client construction), or an
`Err(e).with_context(...)` wrapping of a transport error, which keeps the
underlying error as the cause and attaches a context message. -/
inductive Report where
  | bare (cause : String)
  | contextual (msg : String) (cause : ReqwestError)
deriving DecidableEq

/-- Environment of one call: the outcome of client construction, the
transport outcome of the n-th `send`, and the wall-clock timestamp string
`Local::now().format(...)` observed at the n-th diagnostic print. -/
structure Network where
  client_build_error : Option String
  send : Nat → Except ReqwestError Response
  now : Nat → String

deriving instance DecidableEq for Except

/-- Everything one call to `make_get_request` does, in order: the requests
it sent, the retry delays it slept (in seconds), the diagnostic lines it
printed, and the value it returned. -/
structure CallTrace where
  sent : List GetRequest
  delays : List Nat
  logs : List String
  result : Except Report Response
deriving DecidableEq

/-- The `x-api-key` header value, a string literal in `caller.rs`. -/
def API_KEY : String := "0TvQnueqKa5mxJntVWt0w4LpLfEkrV1Ta8rQBb9Z"

/-- `Duration::from_secs(5)`, the `retry_duration` local. -/
def RETRY_DURATION_SECS : Nat := 5

/-- `Duration::from_secs(15)`, the per-attempt client timeout. -/
def CLIENT_TIMEOUT_SECS : Nat := 15

/-- `let mut attempts = 2;` — the initial retry budget. -/
def INITIAL_ATTEMPTS : Nat := 2

/-- Rust `Debug` formatting of a `&str` (`{url:?}`): the string wrapped in
double quotes.  The urls and arguments in this development contain no
characters that Rust would additionally escape. -/
def rustDebugStr (s : String) : String := "\"" ++ s ++ "\""

/-- Rust `Debug` formatting of the `Option<&T>` argument (`{args:?}`),
given a `Debug` formatter for `T`. -/
def formatArgs {T : Type} (debugFmt : T → String) : Option T → String
  | none => "None"
  | some a => "Some(" ++ debugFmt a ++ ")"

/-- The context message attached on the failure path:
`format!("Failed to request data from the LoLEsports API:{url:?} with args -> {args:?}")`. -/
def contextMsg {T : Type} (debugFmt : T → String) (url : String) (args : Option T) : String :=
  "Failed to request data from the LoLEsports API:" ++ rustDebugStr url
    ++ " with args -> " ++ formatArgs debugFmt args

/-- The diagnostic line printed before a retry:
`println!("{} - Request to {} with args {:?} timed out ", Local::now()..., &url, args)`. -/
def timeoutLog {T : Type} (debugFmt : T → String) (ts url : String) (args : Option T) : String :=
  ts ++ " - Request to " ++ url ++ " with args " ++ formatArgs debugFmt args ++ " timed out "

/-- The loop body builds the same request every iteration:
`client.get(url).header("x-api-key", API_KEY)` then, when arguments were
supplied, `.query(arguments)` (serialised by `toQuery`, the `Serialize`
bound of `T`). -/
def buildRequest {T : Type} (toQuery : T → List (String × String)) (client : Client)
    (url : String) (args : Option T) : GetRequest :=
  { url := url, api_key := API_KEY, query := args.map toQuery,
    timeout_secs := client.timeout_secs }

/-- The `loop` of `make_get_request`.  `idx` numbers the send attempts from
0; `attempts` is the remaining retry budget (`let mut attempts = 2`).  A
successful send returns the response at once.  A failed send retries —
after printing the diagnostic line and sleeping `retry_duration` — exactly
when `e.is_timeout() && attempts > 0`, decrementing the budget; otherwise
it returns `Err(e).with_context(...)`.  Matching on `attempts` as
`a + 1` is the `attempts > 0` test plus the `attempts -= 1` update. -/
def requestLoop {T : Type} (debugFmt : T → String) (toQuery : T → List (String × String))
    (net : Network) (url : String) (args : Option T) (client : Client) :
    Nat → Nat → CallTrace
  | idx, attempts =>
    let b := buildRequest toQuery client url args
    match net.send idx, attempts with
    | .ok response, _ =>
        { sent := [b], delays := [], logs := [], result := .ok response }
    | .error e, a + 1 =>
        if e.is_timeout then
          let rest := requestLoop debugFmt toQuery net url args client (idx + 1) a
          { sent := b :: rest.sent,
            delays := RETRY_DURATION_SECS :: rest.delays,
            logs := timeoutLog debugFmt (net.now idx) url args :: rest.logs,
            result := rest.result }
        else
          { sent := [b], delays := [], logs := [],
            result := .error (.contextual (contextMsg debugFmt url args) e) }
    | .error e, 0 =>
        { sent := [b], delays := [], logs := [],
          result := .error (.contextual (contextMsg debugFmt url args) e) }

/-- `make_get_request` from `src/service/caller.rs`.  First builds the
client with a fixed 15-second timeout, propagating a construction failure
bare through `?`; then runs the retry loop with a budget of 2 retries. -/
def make_get_request {T : Type} (debugFmt : T → String)
    (toQuery : T → List (String × String)) (url : String) (args : Option T)
    (net : Network) : CallTrace :=
  match net.client_build_error with
  | some e => { sent := [], delays := [], logs := [], result := .error (.bare e) }
  | none =>
      let client : Client := { timeout_secs := CLIENT_TIMEOUT_SECS }
      requestLoop debugFmt toQuery net url args client 0 INITIAL_ATTEMPTS

/-- States of the per-call retry state machine given in the spec:
`Attempt(n)`, `Success`, `Fail`. -/
inductive FetchState where
  | attempt (n : Nat)
  | success (r : Response)
  | failed
deriving DecidableEq

/-- One transition of the spec state machine, read over a transport oracle:
`Attempt(n) -> Success` on a successful send, `Attempt(n) -> Attempt(n+1)`
on a timeout below the limit, `Attempt(n) -> Fail` on a timeout at the
limit or on any other error. -/
inductive fetchStep (send : Nat → Except ReqwestError Response) (limit : Nat) :
    FetchState → FetchState → Prop where
  | succeed {n : Nat} {r : Response} :
      send n = .ok r → fetchStep send limit (.attempt n) (.success r)
  | retryTimeout {n : Nat} {e : ReqwestError} :
      send n = .error e → e.is_timeout = true → n < limit →
      fetchStep send limit (.attempt n) (.attempt (n + 1))
  | failTimeout {n : Nat} {e : ReqwestError} :
      send n = .error e → e.is_timeout = true → n = limit →
      fetchStep send limit (.attempt n) FetchState.failed
  | failOther {n : Nat} {e : ReqwestError} :
      send n = .error e → e.is_timeout = false →
      fetchStep send limit (.attempt n) FetchState.failed

/-- The terminal state of the spec machine corresponding to a call result. -/
def terminalState : Except Report Response → FetchState
  | .ok r => .success r
  | .error _ => .failed


/-- JSON values in the shape `serde_json::Value` presents them, with
integral numbers kept exact: serde_json parses an integral JSON number
into `u64`/`i64`, which `Int` models exactly (the upstream identifier
payloads are integral). -/
inductive Json where
  | null
  | bool (b : Bool)
  | num (n : Int)
  | str (s : String)
  | arr (elems : List Json)
  | obj (fields : List (String × Json))

/-- First value bound to `key` in a decoded JSON object, as serde field
lookup does. -/
def lookupField (fields : List (String × Json)) (key : String) : Option Json :=
  match fields with
  | [] => none
  | (k, v) :: rest => if k = key then some v else lookupField rest key

/-- Modelled from the spec: the `DecodeError` kinds of §7 — a decode
failure always names the offending field, and a malformed date also
carries the offending value (`serde_models.rs` is not among the sources;
shape taken from §4.2 and §7 of the spec). -/
inductive DecodeError where
  | missing (field : String)
  | wrongType (field : String)
  | badId (field : String)
  | badDate (field : String) (value : String)
deriving DecidableEq

/-- Modelled from the spec: `LolesportsId`, the 64-bit identifier newtype
(`LolesportsId(u64)` — the tests read it as `id.0`), semantically distinct
from a plain integer. -/
structure LolesportsId where
  val : Nat
deriving DecidableEq

/-- Left-to-right decimal accumulation of a digit character list; `none`
as soon as a non-digit appears. -/
def digitsToNatAux : List Char → Nat → Option Nat
  | [], acc => some acc
  | c :: cs, acc =>
      if c.isDigit then digitsToNatAux cs (acc * 10 + (c.toNat - 48)) else none

/-- Exact decimal value of a non-empty all-digit character list. -/
def digitsToNat (cs : List Char) : Option Nat :=
  match cs with
  | [] => none
  | _ :: _ => digitsToNatAux cs 0

/-- Decimal digit characters of a positive number, most significant first;
`fuel` bounds the recursion and any `fuel ≥ n` yields the digits of `n`. -/
def decimalDigitsAux : Nat → Nat → List Char
  | _, 0 => []
  | 0, _ + 1 => []
  | fuel + 1, n + 1 =>
      decimalDigitsAux fuel ((n + 1) / 10) ++ [Char.ofNat (48 + (n + 1) % 10)]

/-- The decimal string of a natural number, as a JSON numeric string. -/
def natToDecimalString (n : Nat) : String :=
  if n = 0 then "0" else String.mk (decimalDigitsAux n n)

/-- Modelled from the spec: deserialization of one identifier value —
§4.2: numeric identifiers arriving as JSON numbers or numeric strings are
parsed into the 64-bit identifier type as exact integers, not via a float
intermediate; anything else, or a value outside the 64-bit range, is a
`DecodeError` naming the field. -/
def decodeId (j : Json) (field : String) : Except DecodeError LolesportsId :=
  match j with
  | .num n => if 0 ≤ n ∧ n < (2 : Int) ^ 64 then .ok ⟨n.toNat⟩ else .error (.badId field)
  | .str s =>
      match digitsToNat s.data with
      | some v => if v < 2 ^ 64 then .ok ⟨v⟩ else .error (.badId field)
      | none => .error (.badId field)
  | _ => .error (.badId field)

/-- Modelled from the spec: a calendar date with no time component and no
timezone (`chrono::NaiveDate` as the tests use it). -/
structure NaiveDate where
  year : Nat
  month : Nat
  day : Nat
deriving DecidableEq

/-- Gregorian leap-year test. -/
def isLeapYear (y : Nat) : Bool :=
  (y % 4 == 0 && y % 100 != 0) || (y % 400 == 0)

/-- Number of days of month `m` of year `y`. -/
def daysInMonth (y m : Nat) : Nat :=
  if m = 2 then (if isLeapYear y then 29 else 28)
  else if m = 4 ∨ m = 6 ∨ m = 9 ∨ m = 11 then 30
  else 31

/-- Modelled from the spec: strict parse of the fixed `YYYY-MM-DD`
calendar-date format — four digit year, dash, two digit month, dash, two
digit day, nothing else, and the month and day must denote a real
calendar date.  Every other string is rejected. -/
def parseNaiveDate (s : String) : Option NaiveDate :=
  match s.data with
  | [y1, y2, y3, y4, h1, m1, m2, h2, d1, d2] =>
      if y1.isDigit && y2.isDigit && y3.isDigit && y4.isDigit && h1 == '-' &&
          m1.isDigit && m2.isDigit && h2 == '-' && d1.isDigit && d2.isDigit then
        let y := ((y1.toNat - 48) * 10 + (y2.toNat - 48)) * 100 +
          ((y3.toNat - 48) * 10 + (y4.toNat - 48))
        let m := (m1.toNat - 48) * 10 + (m2.toNat - 48)
        let d := (d1.toNat - 48) * 10 + (d2.toNat - 48)
        if 1 ≤ m ∧ m ≤ 12 ∧ 1 ≤ d ∧ d ≤ daysInMonth y m then
          some { year := y, month := m, day := d }
        else none
      else none
  | _ => none

/-- Modelled from the spec: League record {id, slug, name, region, image
URL} (§3), fields as the integration tests read them. -/
structure League where
  id : LolesportsId
  slug : String
  name : String
  region : String
  image : String
deriving DecidableEq

/-- Modelled from the spec: Player record {id, summoner name, first name,
last name, optional image URL, role} (§3). -/
structure Player where
  id : LolesportsId
  summoner_name : String
  first_name : String
  last_name : String
  image : Option String
  role : String
deriving DecidableEq

/-- Modelled from the spec: Team record {id, slug, name, code, image URL,
optional alternative/background image URLs, status, optional home league,
players} (§3). -/
structure Team where
  id : LolesportsId
  slug : String
  name : String
  code : String
  image : String
  alternative_image : Option String
  background_image : Option String
  status : String
  home_league : Option League
  players : List Player
deriving DecidableEq

/-- Modelled from the spec: Tournament record {id, slug, start date, end
date} (§3). -/
structure Tournament where
  id : LolesportsId
  slug : String
  start_date : NaiveDate
  end_date : NaiveDate
deriving DecidableEq

/-- Modelled from the spec: a required string field; a missing key or a
non-string value is a `DecodeError` naming the field. -/
def decodeStringField (fields : List (String × Json)) (key : String) :
    Except DecodeError String :=
  match lookupField fields key with
  | some (.str s) => .ok s
  | some _ => .error (.wrongType key)
  | none => .error (.missing key)

/-- Modelled from the spec: a required identifier field. -/
def decodeIdField (fields : List (String × Json)) (key : String) :
    Except DecodeError LolesportsId :=
  match lookupField fields key with
  | some j => decodeId j key
  | none => .error (.missing key)

/-- Modelled from the spec: a required date-only field, parsed strictly —
a malformed date string is a hard `DecodeError` naming the field and
carrying the offending value, never a default or fallback date. -/
def decodeDateField (fields : List (String × Json)) (key : String) :
    Except DecodeError NaiveDate :=
  match lookupField fields key with
  | some (.str s) =>
      match parseNaiveDate s with
      | some d => .ok d
      | none => .error (.badDate key s)
  | some _ => .error (.wrongType key)
  | none => .error (.missing key)

/-- Modelled from the spec: an optional upstream string field — an absent
key, or an explicit JSON null, decodes to the explicit absent value
`none`; a present string `s` decodes to `some s`, so a present-but-empty
string is `some ""`, distinct from absence. -/
def decodeOptStringField (fields : List (String × Json)) (key : String) :
    Except DecodeError (Option String) :=
  match lookupField fields key with
  | none => .ok none
  | some .null => .ok none
  | some (.str s) => .ok (some s)
  | some _ => .error (.wrongType key)

/-- Modelled from the spec: decoding one League object. -/
def decodeLeague (j : Json) : Except DecodeError League :=
  match j with
  | .obj fields => do
      let id ← decodeIdField fields "id"
      let slug ← decodeStringField fields "slug"
      let name ← decodeStringField fields "name"
      let region ← decodeStringField fields "region"
      let image ← decodeStringField fields "image"
      pure { id := id, slug := slug, name := name, region := region, image := image }
  | _ => .error (.wrongType "league")

/-- Modelled from the spec: the optional embedded home league of a Team —
absent or null is the explicit absent value `none`. -/
def decodeOptLeagueField (fields : List (String × Json)) (key : String) :
    Except DecodeError (Option League) :=
  match lookupField fields key with
  | none => .ok none
  | some .null => .ok none
  | some j => (decodeLeague j).map some

/-- Modelled from the spec: decoding one Player object. -/
def decodePlayer (j : Json) : Except DecodeError Player :=
  match j with
  | .obj fields => do
      let id ← decodeIdField fields "id"
      let summoner ← decodeStringField fields "summonerName"
      let first ← decodeStringField fields "firstName"
      let last ← decodeStringField fields "lastName"
      let image ← decodeOptStringField fields "image"
      let role ← decodeStringField fields "role"
      pure { id := id, summoner_name := summoner, first_name := first,
             last_name := last, image := image, role := role }
  | _ => .error (.wrongType "player")

/-- Modelled from the spec: decoding the player list of a Team; the first
failing record aborts the collection with its error. -/
def decodePlayers : List Json → Except DecodeError (List Player)
  | [] => .ok []
  | j :: js => do
      let p ← decodePlayer j
      let ps ← decodePlayers js
      pure (p :: ps)

/-- Modelled from the spec: the required nested player array of a Team. -/
def decodePlayersField (fields : List (String × Json)) (key : String) :
    Except DecodeError (List Player) :=
  match lookupField fields key with
  | some (.arr js) => decodePlayers js
  | some _ => .error (.wrongType key)
  | none => .error (.missing key)

/-- Modelled from the spec: decoding one Team object with its nested
players. -/
def decodeTeam (j : Json) : Except DecodeError Team :=
  match j with
  | .obj fields => do
      let id ← decodeIdField fields "id"
      let slug ← decodeStringField fields "slug"
      let name ← decodeStringField fields "name"
      let code ← decodeStringField fields "code"
      let image ← decodeStringField fields "image"
      let alt ← decodeOptStringField fields "alternativeImage"
      let bg ← decodeOptStringField fields "backgroundImage"
      let status ← decodeStringField fields "status"
      let hl ← decodeOptLeagueField fields "homeLeague"
      let players ← decodePlayersField fields "players"
      pure { id := id, slug := slug, name := name, code := code, image := image,
             alternative_image := alt, background_image := bg, status := status,
             home_league := hl, players := players }
  | _ => .error (.wrongType "team")

/-- Modelled from the spec: decoding one Tournament object. -/
def decodeTournament (j : Json) : Except DecodeError Tournament :=
  match j with
  | .obj fields => do
      let id ← decodeIdField fields "id"
      let slug ← decodeStringField fields "slug"
      let sd ← decodeDateField fields "startDate"
      let ed ← decodeDateField fields "endDate"
      pure { id := id, slug := slug, start_date := sd, end_date := ed }
  | _ => .error (.wrongType "tournament")

/-- Modelled from the spec: decoding a tournament collection; a record
that fails to decode aborts the collection with that record's error,
never silently dropping or defaulting it. -/
def decodeTournaments : List Json → Except DecodeError (List Tournament)
  | [] => .ok []
  | j :: js => do
      let t ← decodeTournament j
      let ts ← decodeTournaments js
      pure (t :: ts)


/-- Debug formatter for the concrete argument type used in the witnesses:
a flat key-value structure, as the `Serialize + Debug` bound requires. -/
def dbgKV (l : List (String × String)) : String :=
  String.intercalate ", " (l.map (fun p => p.1 ++ "=" ++ p.2))

/-- Query serializer for the concrete argument type used in the witnesses. -/
def qryKV (l : List (String × String)) : List (String × String) := l

/-- A successful transport response used by the witnesses. -/
def okResponse : Response := { status := 200, body := "ok-body" }

/-- A transport failure classified as a timeout. -/
def timeoutErr : ReqwestError :=
  { is_timeout := true, description := "operation timed out" }

/-- A transport failure not classified as a timeout. -/
def connRefusedErr : ReqwestError :=
  { is_timeout := false, description := "connection refused" }

/-- The timestamp oracle used by the witness networks. -/
def witnessClock : Nat → String := fun _ => "2023-06-01 12:00:00.000000000"

/-- Network where the first two sends time out and the third succeeds. -/
def netTwoTimeoutsThenOk : Network :=
  { client_build_error := none,
    send := fun n => if n < 2 then .error timeoutErr else .ok okResponse,
    now := witnessClock }

/-- Network where the first send times out and the second succeeds. -/
def netSecondAttemptOk : Network :=
  { client_build_error := none,
    send := fun n => if n = 0 then .error timeoutErr else .ok okResponse,
    now := witnessClock }

/-- Network where every send fails with a non-timeout transport error. -/
def netConnRefused : Network :=
  { client_build_error := none,
    send := fun _ => .error connRefusedErr,
    now := witnessClock }

/-- Network where every send times out. -/
def netAllTimeout : Network :=
  { client_build_error := none,
    send := fun _ => .error timeoutErr,
    now := witnessClock }

/-- Network whose first send yields a non-2xx response. -/
def netNotFound : Network :=
  { client_build_error := none,
    send := fun _ => .ok { status := 404, body := "not found" },
    now := witnessClock }

/-- Network whose first send succeeds at once. -/
def netOkFirst : Network :=
  { client_build_error := none,
    send := fun _ => .ok okResponse,
    now := witnessClock }

/-- Network where client construction itself fails. -/
def netBuildFails : Network :=
  { client_build_error := some "could not initialize TLS backend",
    send := fun _ => .ok okResponse,
    now := witnessClock }

/-- A team object with no optional keys at all, for the C8 witness. -/
def teamFieldsNoOpt : List (String × Json) :=
  [("id", .num 98767991866488695), ("slug", .str "fnatic"),
   ("name", .str "Fnatic"), ("code", .str "FNC"),
   ("image", .str "http://static.lolesports.com/teams/fnc.png"),
   ("status", .str "active"), ("players", .arr [])]

/-- The record `teamFieldsNoOpt` decodes to: all optional fields absent. -/
def teamNoOpt : Team :=
  { id := ⟨98767991866488695⟩, slug := "fnatic", name := "Fnatic",
    code := "FNC", image := "http://static.lolesports.com/teams/fnc.png",
    alternative_image := none, background_image := none, status := "active",
    home_league := none, players := [] }

/-- A tournament object whose start date string is not a calendar date,
for the C9 witness. -/
def tournamentFieldsBadDate : List (String × Json) :=
  [("id", .num 107417059262120466), ("slug", .str "lec_spring_2022"),
   ("startDate", .str "2022-99-99"), ("endDate", .str "2022-05-01")]

/-- A tournament object that decodes successfully, for the C9 witness. -/
def tournamentFieldsGood : List (String × Json) :=
  [("id", .num 107417059262120465), ("slug", .str "lec_winter_2022"),
   ("startDate", .str "2022-01-01"), ("endDate", .str "2022-03-01")]


theorem requestLoop_sent_length {T : Type} (debugFmt : T → String)
    (toQuery : T → List (String × String)) (net : Network) (url : String)
    (args : Option T) (client : Client) :
    ∀ (attempts idx : Nat),
      0 < (requestLoop debugFmt toQuery net url args client idx attempts).sent.length ∧
      (requestLoop debugFmt toQuery net url args client idx attempts).sent.length ≤ attempts + 1 := by
  intro attempts
  induction attempts with
  | zero =>
      intro idx
      unfold requestLoop
      cases h : net.send idx <;> simp
  | succ a ih =>
      intro idx
      unfold requestLoop
      cases h : net.send idx with
      | ok r => simp
      | error e =>
          by_cases ht : e.is_timeout = true
          · have h1 := ih (idx + 1)
            simp only [ht, if_true]
            simp only [List.length_cons]
            omega
          · simp [ht]

theorem requestLoop_delays {T : Type} (debugFmt : T → String)
    (toQuery : T → List (String × String)) (net : Network) (url : String)
    (args : Option T) (client : Client) :
    ∀ (attempts idx : Nat),
      (requestLoop debugFmt toQuery net url args client idx attempts).delays =
        List.replicate
          ((requestLoop debugFmt toQuery net url args client idx attempts).sent.length - 1)
          RETRY_DURATION_SECS := by
  intro attempts
  induction attempts with
  | zero =>
      intro idx
      unfold requestLoop
      cases h : net.send idx <;> simp
  | succ a ih =>
      intro idx
      unfold requestLoop
      cases h : net.send idx with
      | ok r => simp
      | error e =>
          by_cases ht : e.is_timeout = true
          · have h1 := requestLoop_sent_length debugFmt toQuery net url args client a (idx + 1)
            obtain ⟨hpos, -⟩ := h1
            simp only [ht, if_true, List.length_cons, Nat.add_sub_cancel]
            rw [ih (idx + 1)]
            obtain ⟨m, hm⟩ : ∃ m, (requestLoop debugFmt toQuery net url args client
                (idx + 1) a).sent.length = m + 1 := by
              refine ⟨(requestLoop debugFmt toQuery net url args client
                (idx + 1) a).sent.length - 1, ?_⟩
              omega
            rw [hm]
            simp [List.replicate_succ]
          · simp [ht]

theorem requestLoop_retries_timeout {T : Type} (debugFmt : T → String)
    (toQuery : T → List (String × String)) (net : Network) (url : String)
    (args : Option T) (client : Client) :
    ∀ (attempts idx i : Nat),
      i + 1 < (requestLoop debugFmt toQuery net url args client idx attempts).sent.length →
      ∃ e, net.send (idx + i) = .error e ∧ e.is_timeout = true := by
  intro attempts
  induction attempts with
  | zero =>
      intro idx i hi
      unfold requestLoop at hi
      cases h : net.send idx <;> simp [h] at hi
  | succ a ih =>
      intro idx i hi
      unfold requestLoop at hi
      cases h : net.send idx with
      | ok r => simp [h] at hi
      | error e =>
          by_cases ht : e.is_timeout = true
          · simp only [h, ht, if_true, List.length_cons] at hi
            cases i with
            | zero => exact ⟨e, by simpa using h, ht⟩
            | succ j =>
                have := ih (idx + 1) j (by omega)
                obtain ⟨e1, he1, ht1⟩ := this
                exact ⟨e1, by rw [show idx + (j + 1) = idx + 1 + j by omega]; exact he1, ht1⟩
          · simp [h, ht] at hi

theorem requestLoop_sent_shape {T : Type} (debugFmt : T → String)
    (toQuery : T → List (String × String)) (net : Network) (url : String)
    (args : Option T) (client : Client) :
    ∀ (attempts idx : Nat),
      ∀ r ∈ (requestLoop debugFmt toQuery net url args client idx attempts).sent,
        r = buildRequest toQuery client url args := by
  intro attempts
  induction attempts with
  | zero =>
      intro idx r hr
      unfold requestLoop at hr
      cases h : net.send idx <;> simp [h] at hr <;> exact hr
  | succ a ih =>
      intro idx r hr
      unfold requestLoop at hr
      cases h : net.send idx with
      | ok resp => simp [h] at hr; exact hr
      | error e =>
          by_cases ht : e.is_timeout = true
          · simp only [h, ht, if_true, List.mem_cons] at hr
            rcases hr with hr | hr
            · exact hr
            · exact ih (idx + 1) r hr
          · simp [h, ht] at hr; exact hr

theorem requestLoop_result {T : Type} (debugFmt : T → String)
    (toQuery : T → List (String × String)) (net : Network) (url : String)
    (args : Option T) (client : Client) :
    ∀ (attempts idx : Nat),
      (∃ r, (requestLoop debugFmt toQuery net url args client idx attempts).result = .ok r ∧
        net.send (idx +
          ((requestLoop debugFmt toQuery net url args client idx attempts).sent.length - 1)) =
          .ok r) ∨
      (∃ e, (requestLoop debugFmt toQuery net url args client idx attempts).result =
          .error (.contextual (contextMsg debugFmt url args) e) ∧
        net.send (idx +
          ((requestLoop debugFmt toQuery net url args client idx attempts).sent.length - 1)) =
          .error e ∧
        (e.is_timeout = true →
          (requestLoop debugFmt toQuery net url args client idx attempts).sent.length =
            attempts + 1)) := by
  intro attempts
  induction attempts with
  | zero =>
      intro idx
      unfold requestLoop
      cases h : net.send idx with
      | ok r => left; exact ⟨r, by simp [h], by simpa using h⟩
      | error e => right; exact ⟨e, by simp [h], by simpa using h, by simp [h]⟩
  | succ a ih =>
      intro idx
      unfold requestLoop
      cases h : net.send idx with
      | ok r => left; exact ⟨r, by simp [h], by simpa using h⟩
      | error e =>
          by_cases ht : e.is_timeout = true
          · have hpos := (requestLoop_sent_length debugFmt toQuery net url args client
              a (idx + 1)).1
            have harith : idx + 1 +
                ((requestLoop debugFmt toQuery net url args client (idx + 1) a).sent.length - 1)
              = idx + ((requestLoop debugFmt toQuery net url args client
                  (idx + 1) a).sent.length + 1 - 1) := by omega
            rcases ih (idx + 1) with ⟨r, hres, hsend⟩ | ⟨e1, hres, hsend, hlen⟩
            · left
              refine ⟨r, by simp [h, ht, hres], ?_⟩
              simp only [h, ht, if_true, List.length_cons]
              rw [← harith]
              exact hsend
            · right
              refine ⟨e1, by simp [h, ht, hres], ?_, ?_⟩
              · simp only [h, ht, if_true, List.length_cons]
                rw [← harith]
                exact hsend
              · intro ht1
                have := hlen ht1
                simp only [h, ht, if_true, List.length_cons]
                omega
          · right
            refine ⟨e, by simp [h, ht], by simp [h, ht], ?_⟩
            intro ht1
            exact absurd ht1 ht

theorem requestLoop_steps {T : Type} (debugFmt : T → String)
    (toQuery : T → List (String × String)) (net : Network) (url : String)
    (args : Option T) (client : Client) :
    ∀ (attempts idx : Nat), idx + attempts = INITIAL_ATTEMPTS →
      Relation.ReflTransGen (fetchStep net.send INITIAL_ATTEMPTS) (.attempt idx)
        (terminalState
          (requestLoop debugFmt toQuery net url args client idx attempts).result) := by
  intro attempts
  induction attempts with
  | zero =>
      intro idx hidx
      unfold requestLoop
      cases h : net.send idx with
      | ok r =>
          refine Relation.ReflTransGen.single ?_
          simpa [terminalState] using fetchStep.succeed h
      | error e =>
          refine Relation.ReflTransGen.single ?_
          by_cases ht : e.is_timeout = true
          · simpa [terminalState] using
              fetchStep.failTimeout h ht (by omega : idx = INITIAL_ATTEMPTS)
          · simpa [terminalState] using
              fetchStep.failOther h
                (by simpa using ht)
  | succ a ih =>
      intro idx hidx
      unfold requestLoop
      cases h : net.send idx with
      | ok r =>
          refine Relation.ReflTransGen.single ?_
          simpa [terminalState] using fetchStep.succeed h
      | error e =>
          by_cases ht : e.is_timeout = true
          · have hstep : fetchStep net.send INITIAL_ATTEMPTS (.attempt idx)
                (.attempt (idx + 1)) :=
              fetchStep.retryTimeout h ht (by omega)
            have hrest := ih (idx + 1) (by omega)
            simp only [h, ht, if_true]
            exact Relation.ReflTransGen.head hstep hrest
          · refine Relation.ReflTransGen.single ?_
            simpa [h, ht, terminalState] using
              fetchStep.failOther h (by simpa using ht)

theorem make_get_request_eq_loop {T : Type} (debugFmt : T → String)
    (toQuery : T → List (String × String)) (url : String) (args : Option T)
    (net : Network) (hbuild : net.client_build_error = none) :
    make_get_request debugFmt toQuery url args net =
      requestLoop debugFmt toQuery net url args { timeout_secs := CLIENT_TIMEOUT_SECS }
        0 INITIAL_ATTEMPTS := by
  unfold make_get_request
  rw [hbuild]

theorem requestLoop_ok {T : Type} (debugFmt : T → String)
    (toQuery : T → List (String × String)) (net : Network) (url : String)
    (args : Option T) (client : Client) (idx attempts : Nat) (r : Response)
    (h : net.send idx = .ok r) :
    requestLoop debugFmt toQuery net url args client idx attempts =
      { sent := [buildRequest toQuery client url args], delays := [], logs := [],
        result := .ok r } := by
  unfold requestLoop
  cases attempts <;> simp [h]

theorem requestLoop_timeout_step {T : Type} (debugFmt : T → String)
    (toQuery : T → List (String × String)) (net : Network) (url : String)
    (args : Option T) (client : Client) (idx a : Nat) (e : ReqwestError)
    (h : net.send idx = .error e) (ht : e.is_timeout = true) :
    requestLoop debugFmt toQuery net url args client idx (a + 1) =
      { sent := buildRequest toQuery client url args ::
          (requestLoop debugFmt toQuery net url args client (idx + 1) a).sent,
        delays := RETRY_DURATION_SECS ::
          (requestLoop debugFmt toQuery net url args client (idx + 1) a).delays,
        logs := timeoutLog debugFmt (net.now idx) url args ::
          (requestLoop debugFmt toQuery net url args client (idx + 1) a).logs,
        result := (requestLoop debugFmt toQuery net url args client (idx + 1) a).result } := by
  conv_lhs => unfold requestLoop
  simp [h, ht]

theorem requestLoop_error_stop {T : Type} (debugFmt : T → String)
    (toQuery : T → List (String × String)) (net : Network) (url : String)
    (args : Option T) (client : Client) (idx attempts : Nat) (e : ReqwestError)
    (h : net.send idx = .error e) (hcond : e.is_timeout = false ∨ attempts = 0) :
    requestLoop debugFmt toQuery net url args client idx attempts =
      { sent := [buildRequest toQuery client url args], delays := [], logs := [],
        result := .error (.contextual (contextMsg debugFmt url args) e) } := by
  unfold requestLoop
  rcases hcond with ht | h0
  · cases attempts <;> simp [h, ht]
  · subst h0
    simp [h]

/-- C1: for every call in which the HTTP client is constructed, the
fetcher makes at most 3 send attempts; every attempt that was followed by
a further attempt failed with a timeout (so only timeouts are retried);
each retry is preceded by exactly one fixed 5-second delay; and the call
is a run of the spec state machine `Attempt(n) -> {Success | timeout and
n < limit: Delay then Attempt(n+1) | timeout and n = limit: Fail | other
error: Fail}` with limit 2, from `Attempt(0)` to the terminal state
matching the returned result. -/
theorem C1_retry_policy {T : Type} (debugFmt : T → String)
    (toQuery : T → List (String × String)) (url : String) (args : Option T)
    (net : Network) (hbuild : net.client_build_error = none) :
    (make_get_request debugFmt toQuery url args net).sent.length ≤ 3 ∧
    (make_get_request debugFmt toQuery url args net).delays =
      List.replicate
        ((make_get_request debugFmt toQuery url args net).sent.length - 1) 5 ∧
    (∀ i, i + 1 < (make_get_request debugFmt toQuery url args net).sent.length →
      ∃ e, net.send i = .error e ∧ e.is_timeout = true) ∧
    Relation.ReflTransGen (fetchStep net.send 2) (FetchState.attempt 0)
      (terminalState (make_get_request debugFmt toQuery url args net).result) := by
  rw [make_get_request_eq_loop debugFmt toQuery url args net hbuild]
  refine ⟨?_, ?_, ?_, ?_⟩
  · have h1 := (requestLoop_sent_length debugFmt toQuery net url args
      { timeout_secs := CLIENT_TIMEOUT_SECS } INITIAL_ATTEMPTS 0).2
    simpa [INITIAL_ATTEMPTS] using h1
  · have h2 := requestLoop_delays debugFmt toQuery net url args
      { timeout_secs := CLIENT_TIMEOUT_SECS } INITIAL_ATTEMPTS 0
    simpa [RETRY_DURATION_SECS] using h2
  · intro i hi
    have h3 := requestLoop_retries_timeout debugFmt toQuery net url args
      { timeout_secs := CLIENT_TIMEOUT_SECS } INITIAL_ATTEMPTS 0 i hi
    simpa using h3
  · have h4 := requestLoop_steps debugFmt toQuery net url args
      { timeout_secs := CLIENT_TIMEOUT_SECS } INITIAL_ATTEMPTS 0 (by simp [INITIAL_ATTEMPTS])
    simpa [INITIAL_ATTEMPTS] using h4

/-- Witness for C1: against a network whose first two sends time out and
whose third succeeds, the concrete call obeys the retry policy. -/
theorem C1_retry_policy_witness :
    netTwoTimeoutsThenOk.client_build_error = none ∧
    ((make_get_request dbgKV qryKV "http://u/getLeagues" none netTwoTimeoutsThenOk).sent.length ≤ 3 ∧
     (make_get_request dbgKV qryKV "http://u/getLeagues" none netTwoTimeoutsThenOk).delays =
       List.replicate
         ((make_get_request dbgKV qryKV "http://u/getLeagues" none
           netTwoTimeoutsThenOk).sent.length - 1) 5 ∧
     (∀ i, i + 1 <
         (make_get_request dbgKV qryKV "http://u/getLeagues" none
           netTwoTimeoutsThenOk).sent.length →
       ∃ e, netTwoTimeoutsThenOk.send i = .error e ∧ e.is_timeout = true) ∧
     Relation.ReflTransGen (fetchStep netTwoTimeoutsThenOk.send 2) (FetchState.attempt 0)
       (terminalState
         (make_get_request dbgKV qryKV "http://u/getLeagues" none
           netTwoTimeoutsThenOk).result)) :=
  ⟨rfl, C1_retry_policy dbgKV qryKV "http://u/getLeagues" none netTwoTimeoutsThenOk rfl⟩

/-- C2: when the first send fails with a transport error not classified as
a timeout, the call returns the contextual `FetchError` after exactly one
attempt and sleeps no retry delay. -/
theorem C2_no_retry_on_other_error {T : Type} (debugFmt : T → String)
    (toQuery : T → List (String × String)) (url : String) (args : Option T)
    (net : Network) (e : ReqwestError) (hbuild : net.client_build_error = none)
    (hsend : net.send 0 = .error e) (hto : e.is_timeout = false) :
    (make_get_request debugFmt toQuery url args net).sent.length = 1 ∧
    (make_get_request debugFmt toQuery url args net).delays = [] ∧
    (make_get_request debugFmt toQuery url args net).result =
      .error (.contextual (contextMsg debugFmt url args) e) := by
  rw [make_get_request_eq_loop debugFmt toQuery url args net hbuild,
    requestLoop_error_stop debugFmt toQuery net url args
      { timeout_secs := CLIENT_TIMEOUT_SECS } 0 INITIAL_ATTEMPTS e hsend (Or.inl hto)]
  exact ⟨rfl, rfl, rfl⟩

/-- Witness for C2: a connection-refused failure is surfaced after one
attempt with no delay. -/
theorem C2_no_retry_on_other_error_witness :
    netConnRefused.client_build_error = none ∧
    netConnRefused.send 0 = .error connRefusedErr ∧
    connRefusedErr.is_timeout = false ∧
    ((make_get_request dbgKV qryKV "http://u/getTeams" none netConnRefused).sent.length = 1 ∧
     (make_get_request dbgKV qryKV "http://u/getTeams" none netConnRefused).delays = [] ∧
     (make_get_request dbgKV qryKV "http://u/getTeams" none netConnRefused).result =
       .error (.contextual (contextMsg dbgKV "http://u/getTeams" none) connRefusedErr)) :=
  ⟨rfl, rfl, rfl,
    C2_no_retry_on_other_error dbgKV qryKV "http://u/getTeams" none netConnRefused
      connRefusedErr rfl rfl rfl⟩

/-- C3: number the send attempts of one call from 0 (the claim's N-th
attempt, N ≤ 3, is attempt `n = N - 1 < 3`).  If every attempt before
attempt `n` failed with a timeout and attempt `n` yields a transport
response, the call returns exactly that response and makes no further
attempts: `n + 1` sends in total. -/
theorem C3_success_stops_retrying {T : Type} (debugFmt : T → String)
    (toQuery : T → List (String × String)) (url : String) (args : Option T)
    (net : Network) (n : Nat) (r : Response)
    (hbuild : net.client_build_error = none) (hn : n < 3)
    (hprev : ∀ i, i < n → ∃ e, net.send i = .error e ∧ e.is_timeout = true)
    (hok : net.send n = .ok r) :
    (make_get_request debugFmt toQuery url args net).result = .ok r ∧
    (make_get_request debugFmt toQuery url args net).sent.length = n + 1 := by
  rw [make_get_request_eq_loop debugFmt toQuery url args net hbuild]
  interval_cases n
  · rw [requestLoop_ok debugFmt toQuery net url args
      { timeout_secs := CLIENT_TIMEOUT_SECS } 0 INITIAL_ATTEMPTS r hok]
    exact ⟨rfl, rfl⟩
  · obtain ⟨e0, h0, t0⟩ := hprev 0 (by omega)
    rw [show INITIAL_ATTEMPTS = 1 + 1 from rfl,
      requestLoop_timeout_step debugFmt toQuery net url args
        { timeout_secs := CLIENT_TIMEOUT_SECS } 0 1 e0 h0 t0,
      requestLoop_ok debugFmt toQuery net url args
        { timeout_secs := CLIENT_TIMEOUT_SECS } (0 + 1) 1 r (by simpa using hok)]
    exact ⟨rfl, rfl⟩
  · obtain ⟨e0, h0, t0⟩ := hprev 0 (by omega)
    obtain ⟨e1, h1, t1⟩ := hprev 1 (by omega)
    rw [show INITIAL_ATTEMPTS = 1 + 1 from rfl,
      requestLoop_timeout_step debugFmt toQuery net url args
        { timeout_secs := CLIENT_TIMEOUT_SECS } 0 1 e0 h0 t0,
      show (1 : Nat) = 0 + 1 from rfl,
      requestLoop_timeout_step debugFmt toQuery net url args
        { timeout_secs := CLIENT_TIMEOUT_SECS } (0 + 1) 0 e1 (by simpa using h1) t1,
      requestLoop_ok debugFmt toQuery net url args
        { timeout_secs := CLIENT_TIMEOUT_SECS } (0 + 1 + 1) 0 r (by simpa using hok)]
    exact ⟨rfl, rfl⟩

/-- Witness for C3: against a network whose first send times out and whose
second succeeds, the call returns the response after exactly 2 attempts. -/
theorem C3_success_stops_retrying_witness :
    netSecondAttemptOk.client_build_error = none ∧
    (1 : Nat) < 3 ∧
    netSecondAttemptOk.send 1 = .ok okResponse ∧
    ((make_get_request dbgKV qryKV "http://u/getTeams" none netSecondAttemptOk).result =
       .ok okResponse ∧
     (make_get_request dbgKV qryKV "http://u/getTeams" none netSecondAttemptOk).sent.length =
       1 + 1) :=
  ⟨rfl, by decide, rfl,
    C3_success_stops_retrying dbgKV qryKV "http://u/getTeams" none netSecondAttemptOk
      1 okResponse rfl (by decide)
      (by
        intro i hi
        interval_cases i
        exact ⟨timeoutErr, rfl, rfl⟩)
      rfl⟩

theorem make_get_request_error_cause {T : Type} (debugFmt : T → String)
    (toQuery : T → List (String × String)) (url : String) (args : Option T)
    (net : Network) (hbuild : net.client_build_error = none) (rep : Report)
    (hrep : (make_get_request debugFmt toQuery url args net).result = .error rep) :
    ∃ e, rep = .contextual (contextMsg debugFmt url args) e ∧
      net.send ((make_get_request debugFmt toQuery url args net).sent.length - 1) =
        .error e := by
  rw [make_get_request_eq_loop debugFmt toQuery url args net hbuild] at hrep ⊢
  rcases requestLoop_result debugFmt toQuery net url args
      { timeout_secs := CLIENT_TIMEOUT_SECS } INITIAL_ATTEMPTS 0 with
    ⟨r, hres, -⟩ | ⟨e, hres, hsend, -⟩
  · rw [hrep] at hres
    exact absurd hres (by simp)
  · rw [hrep] at hres
    refine ⟨e, ?_, by simpa using hsend⟩
    exact (Except.error.injEq _ _).mp hres

/-- C4: the fetcher never inspects or validates HTTP status codes — a
transport-level response with any status, 2xx or not, is returned as a
successful `Ok`, and every error the call can return wraps an underlying
transport error, never a response. -/
theorem C4_no_status_inspection {T : Type} (debugFmt : T → String)
    (toQuery : T → List (String × String)) (url : String) (args : Option T)
    (net : Network) (hbuild : net.client_build_error = none) :
    (∀ status body, net.send 0 = .ok { status := status, body := body } →
      (make_get_request debugFmt toQuery url args net).result =
        .ok { status := status, body := body }) ∧
    (∀ rep, (make_get_request debugFmt toQuery url args net).result = .error rep →
      ∃ e, rep = .contextual (contextMsg debugFmt url args) e ∧
        net.send ((make_get_request debugFmt toQuery url args net).sent.length - 1) =
          .error e) := by
  constructor
  · intro status body h
    rw [make_get_request_eq_loop debugFmt toQuery url args net hbuild,
      requestLoop_ok debugFmt toQuery net url args
        { timeout_secs := CLIENT_TIMEOUT_SECS } 0 INITIAL_ATTEMPTS _ h]
  · exact fun rep hrep =>
      make_get_request_error_cause debugFmt toQuery url args net hbuild rep hrep

/-- Witness for C4: a 404 response is returned as `Ok`, not converted into
an error. -/
theorem C4_no_status_inspection_witness :
    netNotFound.client_build_error = none ∧
    netNotFound.send 0 = .ok { status := 404, body := "not found" } ∧
    (make_get_request dbgKV qryKV "http://u/getLeagues" none netNotFound).result =
      .ok { status := 404, body := "not found" } :=
  ⟨rfl, rfl,
    (C4_no_status_inspection dbgKV qryKV "http://u/getLeagues" none netNotFound rfl).1
      404 "not found" rfl⟩

/-- C5: every failure of the fetcher after the client is built — the retry
budget exhausted while still timing out, or a non-retryable transport
error — returns a contextual `FetchError` whose cause is the underlying
transport error of the final attempt, preserved unchanged, and whose
context message embeds the target URL and the Debug rendering of the
supplied arguments. -/
theorem C5_failure_carries_context {T : Type} (debugFmt : T → String)
    (toQuery : T → List (String × String)) (url : String) (args : Option T)
    (net : Network) (rep : Report) (hbuild : net.client_build_error = none)
    (hfail : (make_get_request debugFmt toQuery url args net).result = .error rep) :
    ∃ e, rep = .contextual (contextMsg debugFmt url args) e ∧
      net.send ((make_get_request debugFmt toQuery url args net).sent.length - 1) =
        .error e ∧
      contextMsg debugFmt url args =
        "Failed to request data from the LoLEsports API:\"" ++ url ++
          ("\" with args -> " ++ formatArgs debugFmt args) := by
  obtain ⟨e, hrep, hsend⟩ :=
    make_get_request_error_cause debugFmt toQuery url args net hbuild rep hfail
  refine ⟨e, hrep, hsend, ?_⟩
  show "Failed to request data from the LoLEsports API:" ++ rustDebugStr url
      ++ " with args -> " ++ formatArgs debugFmt args = _
  have h1 : ("Failed to request data from the LoLEsports API:\"" : String) =
      "Failed to request data from the LoLEsports API:" ++ "\"" := rfl
  have h2 : ("\" with args -> " : String) = "\"" ++ " with args -> " := rfl
  rw [rustDebugStr, h1, h2]
  simp only [String.append_assoc]

/-- Witness for C5: a network that always times out exhausts the budget
and fails with the timeout error as cause, URL and arguments in the
message. -/
theorem C5_failure_carries_context_witness :
    netAllTimeout.client_build_error = none ∧
    (make_get_request dbgKV qryKV "http://u/getSchedule" none netAllTimeout).result =
      .error (.contextual (contextMsg dbgKV "http://u/getSchedule" none) timeoutErr) ∧
    (∃ e, Report.contextual (contextMsg dbgKV "http://u/getSchedule" none) timeoutErr =
        .contextual (contextMsg dbgKV "http://u/getSchedule" none) e ∧
      netAllTimeout.send
          ((make_get_request dbgKV qryKV "http://u/getSchedule" none
            netAllTimeout).sent.length - 1) =
        .error e ∧
      contextMsg dbgKV "http://u/getSchedule" none =
        "Failed to request data from the LoLEsports API:\"" ++ "http://u/getSchedule" ++
          ("\" with args -> " ++ formatArgs dbgKV none)) :=
  ⟨rfl, rfl,
    C5_failure_carries_context dbgKV qryKV "http://u/getSchedule" none netAllTimeout
      (.contextual (contextMsg dbgKV "http://u/getSchedule" none) timeoutErr) rfl rfl⟩

/-- C6 counterexample: the `x-api-key` header is a fixed literal in
`make_get_request`, not a configuration input — the request sent by a
concrete call cannot carry each configured key. -/
theorem C6_counterexample :
    ¬ ∀ (key : String),
        ∀ r ∈ (make_get_request dbgKV qryKV "http://mock/getLeagues" none netOkFirst).sent,
          r.api_key = key := by
  intro h
  have ha := h "configured-key"
    (buildRequest qryKV { timeout_secs := CLIENT_TIMEOUT_SECS } "http://mock/getLeagues" none)
    (by decide)
  exact absurd ha (by decide)

/-- C6 amended: every request a call issues goes to the caller-supplied
URL — the base URL is a configuration input assembled by the orchestration
layer, which is how the tests redirect calls to a mock server — but the
API key is not configurable: each request carries the fixed hardcoded
literal in its `x-api-key` header. -/
theorem C6_url_configurable_key_hardcoded {T : Type} (debugFmt : T → String)
    (toQuery : T → List (String × String)) (url : String) (args : Option T)
    (net : Network) :
    ∀ r ∈ (make_get_request debugFmt toQuery url args net).sent,
      r.url = url ∧ r.api_key = "0TvQnueqKa5mxJntVWt0w4LpLfEkrV1Ta8rQBb9Z" := by
  intro r hr
  unfold make_get_request at hr
  cases hb : net.client_build_error with
  | some e =>
      rw [hb] at hr
      simp at hr
  | none =>
      rw [hb] at hr
      have hshape := requestLoop_sent_shape debugFmt toQuery net url args
        { timeout_secs := CLIENT_TIMEOUT_SECS } INITIAL_ATTEMPTS 0 r hr
      rw [hshape]
      exact ⟨rfl, rfl⟩

/-- Witness for C6 (amended): the one request of a concrete successful
call goes to the supplied URL and carries the hardcoded key. -/
theorem C6_url_configurable_key_hardcoded_witness :
    buildRequest qryKV { timeout_secs := CLIENT_TIMEOUT_SECS } "http://mock/getLeagues" none ∈
      (make_get_request dbgKV qryKV "http://mock/getLeagues" none netOkFirst).sent ∧
    ((buildRequest qryKV { timeout_secs := CLIENT_TIMEOUT_SECS } "http://mock/getLeagues"
        none).url = "http://mock/getLeagues" ∧
     (buildRequest qryKV { timeout_secs := CLIENT_TIMEOUT_SECS } "http://mock/getLeagues"
        none).api_key = "0TvQnueqKa5mxJntVWt0w4LpLfEkrV1Ta8rQBb9Z") :=
  ⟨by decide,
    C6_url_configurable_key_hardcoded dbgKV qryKV "http://mock/getLeagues" none netOkFirst
      (buildRequest qryKV { timeout_secs := CLIENT_TIMEOUT_SECS } "http://mock/getLeagues" none)
      (by decide)⟩

/-- C10: each call consults its own client construction; when that
construction fails, the call returns the bare construction error at once —
zero sends, zero delays, zero log lines — and this early-exit error, unlike
a send failure, carries no URL-and-arguments context: it is the same error
whatever URL and arguments the call received. -/
theorem C10_build_failure_early_exit {T : Type} (debugFmt : T → String)
    (toQuery : T → List (String × String)) (url : String) (args : Option T)
    (net : Network) (err : String) (hbuild : net.client_build_error = some err) :
    make_get_request debugFmt toQuery url args net =
      { sent := [], delays := [], logs := [], result := .error (.bare err) } ∧
    ∀ (url2 : String) (args2 : Option T),
      (make_get_request debugFmt toQuery url2 args2 net).result = .error (.bare err) := by
  constructor
  · unfold make_get_request
    rw [hbuild]
  · intro url2 args2
    unfold make_get_request
    rw [hbuild]

/-- Witness for C10: a failing client builder ends the concrete call with
zero attempts and the bare error. -/
theorem C10_build_failure_early_exit_witness :
    netBuildFails.client_build_error = some "could not initialize TLS backend" ∧
    make_get_request dbgKV qryKV "http://u/getLeagues" none netBuildFails =
      { sent := [], delays := [], logs := [],
        result := .error (.bare "could not initialize TLS backend") } :=
  ⟨rfl,
    (C10_build_failure_early_exit dbgKV qryKV "http://u/getLeagues" none netBuildFails
      "could not initialize TLS backend" rfl).1⟩

theorem digitsToNatAux_append (l1 l2 : List Char) (acc : Nat) :
    digitsToNatAux (l1 ++ l2) acc =
      (digitsToNatAux l1 acc).bind (fun a => digitsToNatAux l2 a) := by
  induction l1 generalizing acc with
  | nil => simp [digitsToNatAux]
  | cons c cs ih =>
      simp only [List.cons_append, digitsToNatAux]
      by_cases hc : c.isDigit
      · simp [hc, ih]
      · simp [hc]

theorem digitChar_eval (d : Nat) (hd : d < 10) :
    (Char.ofNat (48 + d)).isDigit = true ∧ (Char.ofNat (48 + d)).toNat = 48 + d := by
  interval_cases d <;> exact ⟨by decide, by decide⟩

theorem decimalDigitsAux_correct (fuel : Nat) :
    ∀ n acc, 0 < n → n ≤ fuel →
      digitsToNatAux (decimalDigitsAux fuel n) acc =
        some (acc * 10 ^ (decimalDigitsAux fuel n).length + n) := by
  induction fuel with
  | zero => intro n acc hn hf; omega
  | succ f ih =>
      intro n acc hn hf
      obtain ⟨m, rfl⟩ : ∃ m, n = m + 1 := ⟨n - 1, by omega⟩
      rw [decimalDigitsAux]
      have hdig := digitChar_eval ((m + 1) % 10) (by omega)
      by_cases hq : (m + 1) / 10 = 0
      · rw [hq]
        have h0 : decimalDigitsAux f 0 = [] := by cases f <;> rfl
        rw [h0]
        simp only [List.nil_append, List.length_cons, List.length_nil,
          digitsToNatAux, hdig.1, if_true, hdig.2]
        have hm : (m + 1) % 10 = m + 1 := by
          have := Nat.div_add_mod (m + 1) 10
          omega
        simp [hm]
      · have hq1 : 0 < (m + 1) / 10 := Nat.pos_of_ne_zero hq
        have hq2 : (m + 1) / 10 ≤ f := by
          have := Nat.div_lt_self (show 0 < m + 1 by omega) (show 1 < 10 by omega)
          omega
        rw [digitsToNatAux_append, ih ((m + 1) / 10) acc hq1 hq2]
        rw [show ∀ (x : Nat) (g : Nat → Option Nat), (Option.some x).bind g = g x
          from fun _ _ => rfl]
        rw [show ∀ (c : Char) (a : Nat), c.isDigit = true →
              digitsToNatAux [c] a = some (a * 10 + (c.toNat - 48))
            from fun c a hc => by simp [digitsToNatAux, hc]]
        · rw [hdig.2]
          have hdm := Nat.div_add_mod (m + 1) 10
          have hlen : (decimalDigitsAux f ((m + 1) / 10) ++
              [Char.ofNat (48 + (m + 1) % 10)]).length =
              (decimalDigitsAux f ((m + 1) / 10)).length + 1 := by simp
          rw [hlen, pow_succ, ← Nat.mul_assoc]
          refine congrArg some ?_
          generalize acc * 10 ^ (decimalDigitsAux f ((m + 1) / 10)).length = A
          omega
        · exact hdig.1

theorem digitsToNat_decimalString (n : Nat) :
    digitsToNat (natToDecimalString n).data = some n := by
  by_cases h0 : n = 0
  · subst h0
    rfl
  · rw [natToDecimalString, if_neg h0]
    show digitsToNat (decimalDigitsAux n n) = some n
    cases h : decimalDigitsAux n n with
    | nil =>
        exfalso
        have hc := decimalDigitsAux_correct n n 0 (by omega) (le_refl n)
        rw [h] at hc
        simp [digitsToNatAux] at hc
        omega
    | cons c cs =>
        rw [show digitsToNat (c :: cs) = digitsToNatAux (c :: cs) 0 from rfl, ← h,
          decimalDigitsAux_correct n n 0 (by omega) (le_refl n)]
        simp

/-- C7: a numeric identifier in the 64-bit range decodes to exactly that
integer, whether it arrives as a JSON number (serde_json keeps integral
numbers exact) or as its decimal numeric string: the decode path is exact
integer parsing, with no floating-point intermediate and no rounding. -/
theorem C7_exact_identifier_decode (n : Nat) (h : n < 2 ^ 64) (field : String) :
    decodeId (.num (n : Int)) field = .ok ⟨n⟩ ∧
    decodeId (.str (natToDecimalString n)) field = .ok ⟨n⟩ := by
  constructor
  · simp only [decodeId]
    rw [if_pos ⟨by exact_mod_cast Nat.zero_le n, by exact_mod_cast h⟩]
    simp
  · simp only [decodeId]
    rw [digitsToNat_decimalString n]
    have h2 : n < 18446744073709551616 := by
      have : (2 : Nat) ^ 64 = 18446744073709551616 := by norm_num
      omega
    simp [h2]

/-- Witness for C7 at the player identifier the integration tests check:
`100356590519370319` decodes exactly from both encodings. -/
theorem C7_exact_identifier_decode_witness :
    (100356590519370319 : Nat) < 2 ^ 64 ∧
    decodeId (.num (100356590519370319 : Int)) "id" = .ok ⟨100356590519370319⟩ ∧
    decodeId (.str (natToDecimalString 100356590519370319)) "id" =
      .ok ⟨100356590519370319⟩ :=
  ⟨by norm_num,
    (C7_exact_identifier_decode 100356590519370319 (by norm_num) "id").1,
    (C7_exact_identifier_decode 100356590519370319 (by norm_num) "id").2⟩

theorem exceptBind_ok {ε α β : Type} {x : Except ε α} {f : α → Except ε β} {b : β}
    (h : x >>= f = .ok b) : ∃ a, x = .ok a ∧ f a = .ok b := by
  cases x with
  | ok a => exact ⟨a, rfl, h⟩
  | error e => simp [Bind.bind, Except.bind] at h

theorem decodeTeam_optional_fields (fields : List (String × Json)) (t : Team)
    (h : decodeTeam (.obj fields) = .ok t) :
    decodeOptStringField fields "alternativeImage" = .ok t.alternative_image ∧
    decodeOptStringField fields "backgroundImage" = .ok t.background_image ∧
    decodeOptLeagueField fields "homeLeague" = .ok t.home_league := by
  simp only [decodeTeam] at h
  obtain ⟨id1, hid, h⟩ := exceptBind_ok h
  obtain ⟨slug1, hslug, h⟩ := exceptBind_ok h
  obtain ⟨name1, hname, h⟩ := exceptBind_ok h
  obtain ⟨code1, hcode, h⟩ := exceptBind_ok h
  obtain ⟨image1, himage, h⟩ := exceptBind_ok h
  obtain ⟨alt1, halt, h⟩ := exceptBind_ok h
  obtain ⟨bg1, hbg, h⟩ := exceptBind_ok h
  obtain ⟨status1, hstatus, h⟩ := exceptBind_ok h
  obtain ⟨hl1, hhl, h⟩ := exceptBind_ok h
  obtain ⟨players1, hplayers, h⟩ := exceptBind_ok h
  simp only [pure, Except.pure, Except.ok.injEq] at h
  subst h
  exact ⟨halt, hbg, hhl⟩

theorem decodePlayer_optional_image (fields : List (String × Json)) (p : Player)
    (h : decodePlayer (.obj fields) = .ok p) :
    decodeOptStringField fields "image" = .ok p.image := by
  simp only [decodePlayer] at h
  obtain ⟨id1, hid, h⟩ := exceptBind_ok h
  obtain ⟨sn1, hsn, h⟩ := exceptBind_ok h
  obtain ⟨fn1, hfn, h⟩ := exceptBind_ok h
  obtain ⟨ln1, hln, h⟩ := exceptBind_ok h
  obtain ⟨im1, him, h⟩ := exceptBind_ok h
  obtain ⟨role1, hrole, h⟩ := exceptBind_ok h
  simp only [pure, Except.pure, Except.ok.injEq] at h
  subst h
  exact him

/-- C8: an optional upstream field that is absent from the input object —
a team's alternative image, background image or home league, a player's
image — decodes to the explicit absent value `none`, while a present but
empty string decodes to `some ""`: absence is a distinct value, not a
sentinel. -/
theorem C8_absent_optional_fields :
    (∀ fields t, decodeTeam (.obj fields) = .ok t →
      (lookupField fields "alternativeImage" = none → t.alternative_image = none) ∧
      (lookupField fields "backgroundImage" = none → t.background_image = none) ∧
      (lookupField fields "homeLeague" = none → t.home_league = none) ∧
      (∀ s, lookupField fields "alternativeImage" = some (.str s) →
        t.alternative_image = some s)) ∧
    (∀ fields p, decodePlayer (.obj fields) = .ok p →
      lookupField fields "image" = none → p.image = none) ∧
    some "" ≠ (none : Option String) := by
  refine ⟨?_, ?_, by simp⟩
  · intro fields t h
    obtain ⟨halt, hbg, hhl⟩ := decodeTeam_optional_fields fields t h
    refine ⟨?_, ?_, ?_, ?_⟩
    · intro habs
      have h1 := halt.symm.trans
        (show decodeOptStringField fields "alternativeImage" = .ok none by
          simp [decodeOptStringField, habs])
      exact (Except.ok.injEq _ _).mp h1
    · intro habs
      have h1 := hbg.symm.trans
        (show decodeOptStringField fields "backgroundImage" = .ok none by
          simp [decodeOptStringField, habs])
      exact (Except.ok.injEq _ _).mp h1
    · intro habs
      have h1 := hhl.symm.trans
        (show decodeOptLeagueField fields "homeLeague" = .ok none by
          simp [decodeOptLeagueField, habs])
      exact (Except.ok.injEq _ _).mp h1
    · intro s hpres
      have h1 := halt.symm.trans
        (show decodeOptStringField fields "alternativeImage" = .ok (some s) by
          simp [decodeOptStringField, hpres])
      exact (Except.ok.injEq _ _).mp h1
  · intro fields p h habs
    have him := decodePlayer_optional_image fields p h
    have h1 := him.symm.trans
      (show decodeOptStringField fields "image" = .ok none by
        simp [decodeOptStringField, habs])
    exact (Except.ok.injEq _ _).mp h1

/-- Witness for C8: a concrete team object with no optional keys decodes
with all three optional fields explicitly absent. -/
theorem C8_absent_optional_fields_witness :
    decodeTeam (.obj teamFieldsNoOpt) = .ok teamNoOpt ∧
    lookupField teamFieldsNoOpt "alternativeImage" = none ∧
    teamNoOpt.alternative_image = none ∧
    teamNoOpt.background_image = none ∧
    teamNoOpt.home_league = none :=
  ⟨rfl, rfl,
    (C8_absent_optional_fields.1 teamFieldsNoOpt teamNoOpt rfl).1 rfl,
    (C8_absent_optional_fields.1 teamFieldsNoOpt teamNoOpt rfl).2.1 rfl,
    (C8_absent_optional_fields.1 teamFieldsNoOpt teamNoOpt rfl).2.2.1 rfl⟩

/-- C9: a tournament object whose date string fails the strict
calendar-date parse decodes to a `DecodeError` naming that date field and
carrying the offending string — never a default date — and one such object
makes the whole collection decode fail with that error, provided the
records before it decode (the collection stops at the first failing
record).  Stated for the start date, for the end date, and for the lift to
a collection. -/
theorem C9_malformed_date_fails (fields : List (String × Json)) (s : String) :
    ((∃ v, decodeIdField fields "id" = .ok v) →
      (∃ v, decodeStringField fields "slug" = .ok v) →
      lookupField fields "startDate" = some (.str s) →
      parseNaiveDate s = none →
      decodeTournament (.obj fields) = .error (.badDate "startDate" s)) ∧
    ((∃ v, decodeIdField fields "id" = .ok v) →
      (∃ v, decodeStringField fields "slug" = .ok v) →
      (∃ d, decodeDateField fields "startDate" = .ok d) →
      lookupField fields "endDate" = some (.str s) →
      parseNaiveDate s = none →
      decodeTournament (.obj fields) = .error (.badDate "endDate" s)) ∧
    (∀ (pre post : List Json) (j : Json) (err : DecodeError),
      (∀ p ∈ pre, ∃ t, decodeTournament p = .ok t) →
      decodeTournament j = .error err →
      decodeTournaments (pre ++ j :: post) = .error err) := by
  refine ⟨?_, ?_, ?_⟩
  · rintro ⟨idv, hid⟩ ⟨sv, hs⟩ hdate hbad
    simp [decodeTournament, Bind.bind, Except.bind, hid, hs, decodeDateField,
      hdate, hbad]
  · rintro ⟨idv, hid⟩ ⟨sv, hs⟩ ⟨dv, hd⟩ hdate hbad
    have hend : decodeDateField fields "endDate" = .error (.badDate "endDate" s) := by
      simp [decodeDateField, hdate, hbad]
    simp [decodeTournament, Bind.bind, Except.bind, hid, hs, hd, hend]
  · intro pre post j err hpre herr
    induction pre with
    | nil =>
        simp [decodeTournaments, Bind.bind, Except.bind, herr]
    | cons p pre1 ih =>
        obtain ⟨tp, htp⟩ := hpre p (by simp)
        have ih1 := ih (fun q hq => hpre q (by simp [hq]))
        simp [decodeTournaments, Bind.bind, Except.bind, htp, ih1]

/-- Witness for C9: the date string of one concrete tournament object is
not a calendar date; the object and a two-element collection holding it
after a well-formed record both fail with the error naming `startDate`. -/
theorem C9_malformed_date_fails_witness :
    parseNaiveDate "2022-99-99" = none ∧
    decodeTournament (.obj tournamentFieldsBadDate) =
      .error (.badDate "startDate" "2022-99-99") ∧
    decodeTournaments [.obj tournamentFieldsGood, .obj tournamentFieldsBadDate] =
      .error (.badDate "startDate" "2022-99-99") := by
  have h1 : decodeTournament (.obj tournamentFieldsBadDate) =
      .error (.badDate "startDate" "2022-99-99") :=
    (C9_malformed_date_fails tournamentFieldsBadDate "2022-99-99").1
      ⟨⟨107417059262120466⟩, rfl⟩ ⟨"lec_spring_2022", rfl⟩ rfl rfl
  refine ⟨rfl, h1, ?_⟩
  have h2 := (C9_malformed_date_fails tournamentFieldsBadDate "2022-99-99").2.2
    [.obj tournamentFieldsGood] [] (.obj tournamentFieldsBadDate)
    (.badDate "startDate" "2022-99-99")
    (by
      intro p hp
      have hp1 : p = Json.obj tournamentFieldsGood := by simpa using hp
      subst hp1
      exact ⟨{ id := ⟨107417059262120465⟩, slug := "lec_winter_2022",
               start_date := { year := 2022, month := 1, day := 1 },
               end_date := { year := 2022, month := 3, day := 1 } }, rfl⟩)
    h1
  simpa using h2
